import Mathlib

/-!
Shallow embedding of the EEG-brain-data repository's electrode selection
controller (src/integrated_code.py, with the comparison-graph variant of
src/final_diagram.py), and proofs of the specification's claims about it.

Amplitude samples are modelled as rationals; Python dicts as
insertion-ordered association lists; Python sets as duplicate-free lists
used up to membership; fallible indexing (IndexError / ValueError /
KeyError) as Option.
-/

namespace EEG

abbrev Color := String

/-- The fixed 18-entry palette `vibrant_colors` from
`EEGVisualizerWindow.create_color_map` (identical in all source variants). -/
def vibrant_colors : List Color :=
  ["blue", "green", "cyan", "magenta", "orange", "purple", "yellow",
   "lime", "pink", "teal", "gold", "red", "navy", "violet", "brown",
   "orchid", "turquoise", "crimson"]

/-- The `channels_of_interest` list from `load_eeg_data`. -/
def channels_of_interest : List String :=
  ["Fp1", "Fp2", "F7", "F3", "F4", "F8", "T7", "C3", "Cz", "C4", "T8",
   "P7", "P3", "Pz", "P4", "P8", "O1", "O2"]

/-- One recorded comparison trace: `(times, channel_data)` as stored into
`selected_electrodes_data`, with `channel_data = epochs.get_data()[:, idx, :]`
(epoch-major rows over time). -/
structure Trace where
  times : List ℚ
  data : List (List ℚ)
deriving DecidableEq

/-- The immutable dataset handed to `EEGVisualizerWindow.__init__`:
marker/channel order (`list(channel_positions.keys())`), the evoked info
channel list (`evoked.info[ch_names]`), the per-epoch array
(`epochs.get_data()`, epoch x channel x time), the averaged array
(`evoked.data`, channel x time) and the shared time axis. -/
structure Dataset where
  channel_names : List String
  ch_names : List String
  epochsData : List (List (List ℚ))
  evokedData : List (List ℚ)
  times : List ℚ
deriving DecidableEq

/-- The mutable UI state: `active_electrodes` (a Python set),
`selected_electrodes_data` (a Python dict, insertion ordered) and the
time slider's current value. -/
structure VState where
  active_electrodes : List String
  selected_electrodes_data : List (String × Trace)
  sliderValue : Nat
deriving DecidableEq

/-- Python dict lookup `d[k]` / `k in d` on an association list. -/
def dictGet? {β : Type} : List (String × β) → String → Option β
  | [], _ => none
  | p :: rest, k => if p.1 = k then some p.2 else dictGet? rest k

/-- Python `del d[k]` on an association list. -/
def dictDel {β : Type} (l : List (String × β)) (k : String) : List (String × β) :=
  l.filter (fun p => p.1 ≠ k)

/-- The key list of an association list (Python `d.keys()`). -/
def dictKeys {β : Type} (l : List (String × β)) : List String :=
  l.map Prod.fst

/-- The dict comprehension of `create_color_map`, generalized over the
running `enumerate` index: entry `i` of the name list is bound to
`vibrant_colors[i % len(vibrant_colors)]`. -/
def color_map_from (k : Nat) : List String → List (String × Color)
  | [] => []
  | name :: rest =>
      (name, vibrant_colors.getD (k % vibrant_colors.length) "") ::
        color_map_from (k + 1) rest

/-- Embedding of `EEGVisualizerWindow.create_color_map` (src/integrated_code.py lines
65-73; identical in src/final_diagram.py and src/electrode_clicking.py). -/
def create_color_map (names : List String) : List (String × Color) :=
  color_map_from 0 names

/-- Embedding of `epochs.get_data()[:, channel_idx, :]`: the per-epoch rows of one
channel. -/
def get_channel_data (ds : Dataset) (idx : Nat) : List (List ℚ) :=
  ds.epochsData.map (fun ep => ep.getD idx [])

/-- The selection toggle at the head of `on_pick`: a selected channel is
removed from `active_electrodes` and (when present) deleted from
`selected_electrodes_data`; an unselected one is added to
`active_electrodes`. -/
def pick_toggle (s : VState) (channel_name : String) : VState :=
  if channel_name ∈ s.active_electrodes then
    { s with
      active_electrodes := s.active_electrodes.filter (fun n => n ≠ channel_name),
      selected_electrodes_data :=
        if (dictGet? s.selected_electrodes_data channel_name).isSome then
          dictDel s.selected_electrodes_data channel_name
        else s.selected_electrodes_data }
  else
    { s with active_electrodes := channel_name :: s.active_electrodes }

/-- The tail of `on_pick`: the freshly extracted trace is recorded iff the
channel is not already in `selected_electrodes_data` and is (still)
active. -/
def record_if_new (s : VState) (channel_name : String) (tr : Trace) : VState :=
  if dictGet? s.selected_electrodes_data channel_name = none
      ∧ channel_name ∈ s.active_electrodes then
    { s with
      selected_electrodes_data := s.selected_electrodes_data ++ [(channel_name, tr)] }
  else s

/-- Embedding of `EEGVisualizerWindow.on_pick` (src/integrated_code.py lines 113-139)
for a pick on the electrode marker collection. `none` models an uncaught
Python exception: `IndexError` from `self.channel_names[ind]` when `ind`
is out of range, `ValueError` from `self.evoked.info[ch_names].index`
when the picked name is absent there. -/
def on_pick (ds : Dataset) (s : VState) (ind : Nat) : Option VState :=
  match ds.channel_names.get? ind with
  | none => none
  | some channel_name =>
    let s1 := pick_toggle s channel_name
    match ds.ch_names.findIdx? (fun n => n == channel_name) with
    | none => none
    | some channel_idx =>
      some (record_if_new s1 channel_name
        ⟨ds.times, get_channel_data ds channel_idx⟩)

/-- The runtime type of the picked artist, discriminated by
`isinstance(event.artist, PathCollection)` at the top of `on_pick`. -/
inductive PickArtist
  | pathCollection
  | other
deriving DecidableEq

/-- The whole pick handler: a pick whose artist is not the electrode
marker collection falls through the `isinstance` guard and changes
nothing. -/
def handle_pick_event (ds : Dataset) (s : VState) (artist : PickArtist)
    (ind : Nat) : Option VState :=
  match artist with
  | .other => some s
  | .pathCollection => on_pick ds s ind

/-- The numpy arithmetic mean of a vector (`.mean()`). An empty vector is
mapped to `0` (division by zero in ℚ). -/
def np_mean (xs : List ℚ) : ℚ :=
  xs.sum / xs.length

/-- The square of `numpy`'s default standard deviation (`.std()`,
`ddof = 0`): the population variance, mean of squared deviations. -/
def np_var (xs : List ℚ) : ℚ :=
  (xs.map (fun x => (x - np_mean xs) ^ 2)).sum / xs.length

/-- Modelled from the spec: the square of the "sample standard deviation"
named in the trace-extraction contract, i.e. the `ddof = 1` variance with
denominator `n - 1`. Stated only to compare with `np_var`, the variance
the source actually computes. -/
def sample_var (xs : List ℚ) : ℚ :=
  (xs.map (fun x => (x - np_mean xs) ^ 2)).sum / ((xs.length : ℚ) - 1)

/-- Column `t` of an epoch-major matrix: the per-epoch values at one time
index (`channel_data[:, t]`). -/
def column_at (data : List (List ℚ)) (t : Nat) : List ℚ :=
  data.map (fun row => row.getD t 0)

/-- The number of time samples of an epoch-major matrix (length of its
rows). -/
def n_times (data : List (List ℚ)) : Nat :=
  (data.headD []).length

/-- Embedding of `channel_data.mean(axis=0)`: the across-epoch mean at each time
index. -/
def mean_curve (data : List (List ℚ)) : List ℚ :=
  (List.range (n_times data)).map (fun t => np_mean (column_at data t))

/-- The square of `channel_data.std(axis=0)`: the across-epoch population
variance at each time index. The drawn band is the mean curve plus and
minus the square root of this curve. -/
def var_curve (data : List (List ℚ)) : List ℚ :=
  (List.range (n_times data)).map (fun t => np_var (column_at data t))

/-- What one `update_plot` call draws in the spatial view: the displayed
time instant, the topomap slice `evoked.data[:, time_index]`, and the
per-marker facecolors set on the scatter. -/
structure SpatialRender where
  time_point : ℚ
  topomap_values : List ℚ
  marker_facecolors : List Color
deriving DecidableEq

/-- Embedding of `evoked.data[:, t]` row by row; `none` models the `IndexError` when
`t` is out of a row's range. -/
def column_slice (t : Nat) : List (List ℚ) → Option (List ℚ)
  | [] => some []
  | row :: rest =>
    match row.get? t with
    | none => none
    | some v =>
      match column_slice t rest with
      | none => none
      | some vs => some (v :: vs)

/-- The facecolor list comprehension of `update_plot`:
`self.color_map[name] if name in self.active_electrodes else red` for
each marker, in channel order. `none` models the `KeyError` on a name
missing from the color map. -/
def facecolor_list (cmap : List (String × Color)) (active : List String) :
    List String → Option (List Color)
  | [] => some []
  | name :: rest =>
    match (if name ∈ active then dictGet? cmap name else some "red") with
    | none => none
    | some c =>
      match facecolor_list cmap active rest with
      | none => none
      | some cs => some (c :: cs)

/-- Embedding of `EEGVisualizerWindow.update_plot` (src/integrated_code.py lines
75-111): reads the slider, shows `times[time_index]`, redraws the topomap
from `evoked.data[:, time_index]` and recolors every marker from the
selection state. It mutates no selection state. -/
def update_plot (ds : Dataset) (cmap : List (String × Color)) (s : VState) :
    Option SpatialRender :=
  match ds.times.get? s.sliderValue with
  | none => none
  | some time_point =>
    match column_slice s.sliderValue ds.evokedData with
    | none => none
    | some vals =>
      match facecolor_list cmap s.active_electrodes ds.channel_names with
      | none => none
      | some colors => some ⟨time_point, vals, colors⟩

/-- What one `show_channel_popup` call draws in the popup comparison view
(src/integrated_code.py lines 167-185): one mean curve and one variance
curve (squared `std` band) per entry of `selected_electrodes_data`, in
that channel's color, labeled with the channel name. The popup never
draws a text artist, so `texts` is always empty. -/
structure PopupRender where
  texts : List String
  traces : List (String × Color × List ℚ × List ℚ)
deriving DecidableEq

def show_channel_popup_render (cmap : List (String × Color)) (s : VState) :
    PopupRender :=
  ⟨[],
   s.selected_electrodes_data.map (fun p =>
     (p.1, (dictGet? cmap p.1).getD "blue",
      mean_curve p.2.data, var_curve p.2.data))⟩

/-- A `selected_electrodes_data` value of the src/final_diagram.py
variant: `(times, evoked.data[channel_idx, :])`. -/
abbrev FDTrace := List ℚ × List ℚ

/-- What one `update_graph` call draws in the comparison view
(src/final_diagram.py lines 141-169): the "No electrode selected." text
when the selection dict is empty, one line per selected channel in its
color, and the dashed cursor line at `evoked.times[slider]`. -/
structure GraphRender where
  texts : List String
  traces : List (String × Color × List ℚ)
  cursor_time : ℚ
deriving DecidableEq

def update_graph (cmap : List (String × Color)) (times : List ℚ)
    (sliderValue : Nat) (sd : List (String × FDTrace)) : Option GraphRender :=
  match times.get? sliderValue with
  | none => none
  | some current_time =>
    some ⟨if sd.isEmpty then ["No electrode selected."] else [],
          sd.map (fun p => (p.1, (dictGet? cmap p.1).getD "blue", p.2.2)),
          current_time⟩

/-- Qt's `qBound` for a slider: a requested value is clamped into
`[minimum, maximum]`. -/
def qt_bound (minV maxV v : Int) : Int :=
  max minV (min v maxV)

/-- Setting the time slider, whose range `__init__` fixes to
`[0, len(evoked.times) - 1]`. -/
def slider_set_value (ds : Dataset) (v : Int) : Nat :=
  (qt_bound 0 ((ds.times.length : Int) - 1) v).toNat

/-- A slider move: the slider widget stores the clamped value; the
connected handler (`update_plot`) only reads the rest of the state. -/
def slider_change (ds : Dataset) (s : VState) (v : Int) : VState :=
  { s with sliderValue := slider_set_value ds v }

/-- A small concrete dataset (3 channels, 3 epochs, 2 time samples) used
to witness the theorems on concrete inputs. -/
def demoDS : Dataset :=
  { channel_names := ["Fp1", "Fp2", "Cz"]
    ch_names := ["Fp1", "Fp2", "Cz"]
    epochsData := [[[1, 0], [2, 0], [3, 0]],
                   [[3, 0], [4, 0], [5, 0]],
                   [[5, 0], [6, 0], [7, 0]]]
    evokedData := [[3, 0], [4, 0], [5, 0]]
    times := [0, 1] }

/-- The startup state: nothing selected, slider at 0. -/
def initState : VState :=
  { active_electrodes := []
    selected_electrodes_data := []
    sliderValue := 0 }

/-- The state after picking marker 0 (`Fp1`) of `demoDS` from the startup
state. -/
def pickedFp1 : VState :=
  { active_electrodes := ["Fp1"]
    selected_electrodes_data := [("Fp1", ⟨[0, 1], [[1, 0], [3, 0], [5, 0]]⟩)]
    sliderValue := 0 }

/-- A dataset with the full 18-channel montage of `load_eeg_data`, used
to exhibit behaviour at marker index 11 (`P7`). -/
def ds18 : Dataset :=
  { channel_names := channels_of_interest
    ch_names := channels_of_interest
    epochsData := []
    evokedData := List.replicate 18 [0]
    times := [0] }

/-- A state with only `Fp1` selected and no recorded trace yet. -/
def selFp1 : VState :=
  { active_electrodes := ["Fp1"]
    selected_electrodes_data := []
    sliderValue := 0 }

/-- A one-channel state holding the spec's 3-epoch scenario values
`[1, 3, 5]` at a single time index for `Fp1`. -/
def popFp1State : VState :=
  { active_electrodes := ["Fp1"]
    selected_electrodes_data := [("Fp1", ⟨[0], [[1], [3], [5]]⟩)]
    sliderValue := 0 }

/-- Observational equality of UI states: the same selection set, the same
recorded trace for every channel, the same slider position. This is
equality of the abstract Selection State (a Python set) and of the trace
store (a Python dict viewed as a key-to-value map). -/
def VEquiv (s t : VState) : Prop :=
  (∀ n, n ∈ s.active_electrodes ↔ n ∈ t.active_electrodes) ∧
  (∀ n, dictGet? s.selected_electrodes_data n =
    dictGet? t.selected_electrodes_data n) ∧
  s.sliderValue = t.sliderValue

/-! ### Association-list and filter helper lemmas -/

theorem dictGet?_append_some {β : Type} {l : List (String × β)} {n : String}
    {v : β} (h : dictGet? l n = some v) (l' : List (String × β)) :
    dictGet? (l ++ l') n = some v := by
  induction l with
  | nil => simp [dictGet?] at h
  | cons p rest ih =>
    rw [dictGet?] at h
    rw [List.cons_append, dictGet?]
    by_cases hp : p.1 = n
    · simpa [hp] using h
    · simp only [hp, if_false] at h ⊢
      exact ih h

theorem dictGet?_append_none {β : Type} {l : List (String × β)} {n : String}
    (h : dictGet? l n = none) (l' : List (String × β)) :
    dictGet? (l ++ l') n = dictGet? l' n := by
  induction l with
  | nil => simp
  | cons p rest ih =>
    rw [dictGet?] at h
    rw [List.cons_append, dictGet?]
    by_cases hp : p.1 = n
    · simp [hp] at h
    · simp only [hp, if_false] at h ⊢
      exact ih h

theorem dictGet?_singleton {β : Type} (c n : String) (v : β) :
    dictGet? [(c, v)] n = if c = n then some v else none := by
  rw [dictGet?]
  split <;> simp [dictGet?]

theorem dictGet?_append_singleton_ne {β : Type} (l : List (String × β))
    {c d : String} (v : β) (h : d ≠ c) :
    dictGet? (l ++ [(c, v)]) d = dictGet? l d := by
  cases hl : dictGet? l d with
  | some w => exact dictGet?_append_some hl _
  | none =>
    rw [dictGet?_append_none hl, dictGet?_singleton,
      if_neg (fun hc => h hc.symm)]

theorem dictGet?_dictDel_self {β : Type} (l : List (String × β)) (c : String) :
    dictGet? (dictDel l c) c = none := by
  induction l with
  | nil => rfl
  | cons p rest ih =>
    by_cases hp : p.1 = c
    · simpa [dictDel, hp] using ih
    · simpa [dictDel, List.filter_cons, hp, dictGet?] using ih

theorem dictGet?_dictDel_ne {β : Type} (l : List (String × β)) {c n : String}
    (h : n ≠ c) : dictGet? (dictDel l c) n = dictGet? l n := by
  induction l with
  | nil => rfl
  | cons p rest ih =>
    by_cases hp : p.1 = c
    · rw [show dictGet? (p :: rest) n = dictGet? rest n by
        rw [dictGet?, if_neg (hp ▸ fun he => h he.symm)]]
      simpa [dictDel, List.filter_cons, hp] using ih
    · rw [show dictDel (p :: rest) c = p :: dictDel rest c by
        simp [dictDel, List.filter_cons, hp]]
      rw [dictGet?, dictGet?]
      split
      · rfl
      · exact ih

theorem dictGet?_eq_none_iff {β : Type} (l : List (String × β)) (n : String) :
    dictGet? l n = none ↔ n ∉ dictKeys l := by
  induction l with
  | nil => simp [dictGet?, dictKeys]
  | cons p rest ih =>
    by_cases hp : p.1 = n
    · simp [dictGet?, dictKeys, hp]
    · rw [dictGet?, if_neg hp, ih]
      unfold dictKeys
      rw [List.map_cons, List.mem_cons]
      push_neg
      constructor
      · intro h
        exact ⟨fun he => hp he.symm, h⟩
      · exact fun h => h.2

theorem dictGet?_isSome_iff {β : Type} (l : List (String × β)) (n : String) :
    (dictGet? l n).isSome ↔ n ∈ dictKeys l := by
  rw [Option.isSome_iff_ne_none]
  constructor
  · intro h
    by_contra hm
    exact h ((dictGet?_eq_none_iff l n).mpr hm)
  · intro hm he
    exact ((dictGet?_eq_none_iff l n).mp he) hm

theorem dictDel_eq_self {β : Type} {l : List (String × β)} {c : String}
    (h : dictGet? l c = none) : dictDel l c = l := by
  induction l with
  | nil => rfl
  | cons p rest ih =>
    rw [dictGet?] at h
    by_cases hp : p.1 = c
    · simp [hp] at h
    · simp only [hp, if_false] at h
      simp [dictDel, List.filter_cons, hp] at ih ⊢
      exact ih h

theorem dictKeys_dictDel {β : Type} (l : List (String × β)) (c : String) :
    dictKeys (dictDel l c) = (dictKeys l).filter (fun n => n ≠ c) := by
  induction l with
  | nil => rfl
  | cons p rest ih =>
    by_cases hp : p.1 = c <;>
      simp [dictDel, dictKeys, List.filter_cons, hp] at ih ⊢ <;>
      exact ih

theorem dictKeys_append {β : Type} (l l' : List (String × β)) :
    dictKeys (l ++ l') = dictKeys l ++ dictKeys l' := by
  simp [dictKeys]

theorem mem_filter_ne (l : List String) (n c : String) :
    n ∈ l.filter (fun x => x ≠ c) ↔ n ∈ l ∧ n ≠ c := by
  simp [List.mem_filter]

theorem not_mem_filter_self (l : List String) (c : String) :
    c ∉ l.filter (fun x => x ≠ c) := by
  intro h
  exact ((mem_filter_ne l c c).mp h).2 rfl

/-! ### Color-map helper lemmas -/

theorem color_map_from_get (names : List String) (hnd : names.Nodup) :
    ∀ (k i : Nat) (hi : i < names.length),
      dictGet? (color_map_from k names) (names.get ⟨i, hi⟩) =
        some (vibrant_colors.getD ((k + i) % vibrant_colors.length) "") := by
  induction names with
  | nil => intro k i hi; exact absurd hi (by simp)
  | cons name rest ih =>
    intro k i hi
    match i with
    | 0 => simp [color_map_from, dictGet?]
    | j + 1 =>
      have hj : j < rest.length := by simpa using Nat.lt_of_succ_lt_succ hi
      have hne : name ≠ rest.get ⟨j, hj⟩ := by
        intro he
        apply (List.nodup_cons.mp hnd).1
        rw [he]
        exact List.get_mem rest j hj
      rw [color_map_from, show (name :: rest).get ⟨j + 1, hi⟩ =
        rest.get ⟨j, hj⟩ from rfl]
      rw [dictGet?, if_neg (fun he => hne he)]
      rw [ih (List.nodup_cons.mp hnd).2 (k + 1) j hj]
      have h2 : k + 1 + j = k + (j + 1) := by omega
      rw [h2]

theorem dictGet?_create_color_map (names : List String) (hnd : names.Nodup)
    (i : Nat) (hi : i < names.length) :
    dictGet? (create_color_map names) (names.get ⟨i, hi⟩) =
      some (vibrant_colors.getD (i % vibrant_colors.length) "") := by
  simpa using color_map_from_get names hnd 0 i hi

theorem dictGet?_color_map_from_isSome (n : String) :
    ∀ (names : List String) (k : Nat), n ∈ names →
      (dictGet? (color_map_from k names) n).isSome := by
  intro names
  induction names with
  | nil => intro k h; simp at h
  | cons name rest ih =>
    intro k h
    rw [color_map_from, dictGet?]
    split
    · rfl
    · rcases List.mem_cons.mp h with he | hm
      · simp_all
      · exact ih (k + 1) hm

theorem dictGet?_create_isSome {names : List String} {n : String}
    (h : n ∈ names) : (dictGet? (create_color_map names) n).isSome :=
  dictGet?_color_map_from_isSome n names 0 h

/-! ### Characterization of one pick of a dataset channel -/

theorem on_pick_eq (ds : Dataset) (s : VState) (ind : Nat) {c : String}
    {j : Nat} (hname : ds.channel_names.get? ind = some c)
    (hfind : ds.ch_names.findIdx? (fun n => n == c) = some j) :
    on_pick ds s ind =
      some (record_if_new (pick_toggle s c) c ⟨ds.times, get_channel_data ds j⟩) := by
  simp only [on_pick, hname, hfind]

theorem on_pick_shape (ds : Dataset) (s : VState) (ind : Nat) {s' : VState}
    (h : on_pick ds s ind = some s') :
    ∃ c j, ds.channel_names.get? ind = some c ∧
      ds.ch_names.findIdx? (fun n => n == c) = some j ∧
      s' = record_if_new (pick_toggle s c) c ⟨ds.times, get_channel_data ds j⟩ := by
  rw [on_pick] at h
  cases hname : ds.channel_names.get? ind with
  | none =>
    simp only [hname] at h
    exact Option.noConfusion h
  | some c =>
    simp only [hname] at h
    cases hfind : ds.ch_names.findIdx? (fun n => n == c) with
    | none =>
      simp only [hfind] at h
      exact Option.noConfusion h
    | some j =>
      simp only [hfind, Option.some_inj] at h
      exact ⟨c, j, rfl, hfind, h.symm⟩

/-- A pick of a currently selected channel (whose trace is recorded)
removes it from the set and deletes its trace, and records nothing new. -/
theorem pick_selected (s : VState) (c : String) (tr : Trace)
    (hc : c ∈ s.active_electrodes)
    (hsome : (dictGet? s.selected_electrodes_data c).isSome) :
    record_if_new (pick_toggle s c) c tr =
      { s with
        active_electrodes := s.active_electrodes.filter (fun n => n ≠ c),
        selected_electrodes_data := dictDel s.selected_electrodes_data c } := by
  rw [pick_toggle, if_pos hc, if_pos hsome]
  rw [record_if_new]
  rw [if_neg]
  rintro ⟨-, hmem⟩
  exact not_mem_filter_self s.active_electrodes c hmem

/-- A pick of a currently unselected channel (with no recorded trace)
adds it to the set and appends its freshly extracted trace. -/
theorem pick_unselected (s : VState) (c : String) (tr : Trace)
    (hc : c ∉ s.active_electrodes)
    (hnone : dictGet? s.selected_electrodes_data c = none) :
    record_if_new (pick_toggle s c) c tr =
      { s with
        active_electrodes := c :: s.active_electrodes,
        selected_electrodes_data := s.selected_electrodes_data ++ [(c, tr)] } := by
  rw [pick_toggle, if_neg hc]
  rw [record_if_new]
  rw [if_pos]
  exact ⟨hnone, List.mem_cons_self c s.active_electrodes⟩

theorem record_if_new_active (s : VState) (c : String) (tr : Trace) :
    (record_if_new s c tr).active_electrodes = s.active_electrodes := by
  rw [record_if_new]
  split <;> rfl

theorem record_if_new_slider (s : VState) (c : String) (tr : Trace) :
    (record_if_new s c tr).sliderValue = s.sliderValue := by
  rw [record_if_new]
  split <;> rfl

theorem record_if_new_dictGet_ne (s : VState) (c : String) (tr : Trace)
    {d : String} (hd : d ≠ c) :
    dictGet? (record_if_new s c tr).selected_electrodes_data d =
      dictGet? s.selected_electrodes_data d := by
  rw [record_if_new]
  split
  · exact dictGet?_append_singleton_ne _ tr hd
  · rfl

theorem pick_toggle_slider (s : VState) (c : String) :
    (pick_toggle s c).sliderValue = s.sliderValue := by
  rw [pick_toggle]
  split <;> rfl

theorem pick_toggle_active_ne (s : VState) (c : String) {d : String}
    (hd : d ≠ c) :
    d ∈ (pick_toggle s c).active_electrodes ↔ d ∈ s.active_electrodes := by
  rw [pick_toggle]
  split
  · simp only []
    rw [mem_filter_ne]
    exact ⟨fun h => h.1, fun h => ⟨h, hd⟩⟩
  · simp [List.mem_cons, fun h : d = c => hd h]

theorem pick_toggle_dictGet_ne (s : VState) (c : String) {d : String}
    (hd : d ≠ c) :
    dictGet? (pick_toggle s c).selected_electrodes_data d =
      dictGet? s.selected_electrodes_data d := by
  rw [pick_toggle]
  split
  · simp only []
    split
    · exact dictGet?_dictDel_ne _ hd
    · rfl
  · rfl

/-! ### Render-layer helper lemmas -/

theorem vibrant_colors_length : vibrant_colors.length = 18 := rfl

theorem vibrant_red_iff :
    ∀ j, j < 18 → (vibrant_colors.getD j "" = "red" ↔ j = 11) := by decide

theorem popup_traces_names (cmap : List (String × Color)) (s : VState) :
    (show_channel_popup_render cmap s).traces.map (fun tr => tr.1) =
      dictKeys s.selected_electrodes_data := by
  rw [show_channel_popup_render]
  rw [List.map_map]
  rfl

theorem facecolor_list_isSome (cmap : List (String × Color))
    (active : List String) :
    ∀ names : List String,
      (∀ n ∈ names, n ∈ active → (dictGet? cmap n).isSome) →
      (facecolor_list cmap active names).isSome := by
  intro names
  induction names with
  | nil => intro _; rfl
  | cons name rest ih =>
    intro h
    have hrest := ih (fun n hn ha => h n (List.mem_cons_of_mem _ hn) ha)
    have hhead : (if name ∈ active then dictGet? cmap name else some "red").isSome := by
      split
      · exact h name (List.mem_cons_self _ _) (by assumption)
      · rfl
    cases hh : (if name ∈ active then dictGet? cmap name else some "red") with
    | none => rw [hh] at hhead; exact absurd hhead (by simp)
    | some c =>
      cases hr : facecolor_list cmap active rest with
      | none => rw [hr] at hrest; exact absurd hrest (by simp)
      | some cs => simp [facecolor_list, hh, hr]

theorem facecolor_list_get (cmap : List (String × Color)) (active : List String) :
    ∀ (names : List String) (out : List Color),
      facecolor_list cmap active names = some out →
      ∀ (i : Nat) (hi : i < names.length),
        out.get? i =
          if names.get ⟨i, hi⟩ ∈ active then dictGet? cmap (names.get ⟨i, hi⟩)
          else some "red" := by
  intro names
  induction names with
  | nil => intro out _ i hi; exact absurd hi (by simp)
  | cons name rest ih =>
    intro out h i hi
    rw [facecolor_list] at h
    cases hh : (if name ∈ active then dictGet? cmap name else some "red") with
    | none => rw [hh] at h; exact Option.noConfusion h
    | some c =>
      rw [hh] at h
      cases hr : facecolor_list cmap active rest with
      | none => rw [hr] at h; exact Option.noConfusion h
      | some cs =>
        rw [hr] at h
        have hout : out = c :: cs := (Option.some_inj.mp h).symm
        subst hout
        match i with
        | 0 => simpa using hh.symm
        | j + 1 =>
          have hj : j < rest.length := by simpa using Nat.lt_of_succ_lt_succ hi
          simpa using ih cs hr j hj

theorem column_slice_isSome (t : Nat) :
    ∀ rows : List (List ℚ), (∀ row ∈ rows, t < row.length) →
      (column_slice t rows).isSome := by
  intro rows
  induction rows with
  | nil => intro _; rfl
  | cons row rest ih =>
    intro h
    have ht : t < row.length := h row (List.mem_cons_self _ _)
    have hrest := ih (fun r hr => h r (List.mem_cons_of_mem _ hr))
    have hv : row.get? t = some (row.get ⟨t, ht⟩) := List.get?_eq_get ht
    cases hr : column_slice t rest with
    | none => rw [hr] at hrest; exact absurd hrest (by simp)
    | some vs =>
      simp only [column_slice, hv, hr]
      rfl

theorem update_plot_inv {ds : Dataset} {cmap : List (String × Color)}
    {s : VState} {r : SpatialRender} (h : update_plot ds cmap s = some r) :
    ds.times.get? s.sliderValue = some r.time_point ∧
    column_slice s.sliderValue ds.evokedData = some r.topomap_values ∧
    facecolor_list cmap s.active_electrodes ds.channel_names =
      some r.marker_facecolors := by
  rw [update_plot] at h
  cases h1 : ds.times.get? s.sliderValue with
  | none => simp only [h1] at h; exact Option.noConfusion h
  | some tp =>
    simp only [h1] at h
    cases h2 : column_slice s.sliderValue ds.evokedData with
    | none => simp only [h2] at h; exact Option.noConfusion h
    | some vals =>
      simp only [h2] at h
      cases h3 : facecolor_list cmap s.active_electrodes ds.channel_names with
      | none => simp only [h3] at h; exact Option.noConfusion h
      | some cols =>
        simp only [h3, Option.some_inj] at h
        rw [← h]
        exact ⟨rfl, rfl, rfl⟩

theorem update_graph_inv {cmap : List (String × Color)} {times : List ℚ}
    {v : Nat} {sd : List (String × FDTrace)} {g : GraphRender}
    (h : update_graph cmap times v sd = some g) :
    g.texts = (if sd.isEmpty then ["No electrode selected."] else []) ∧
    g.traces = sd.map (fun p => (p.1, (dictGet? cmap p.1).getD "blue", p.2.2)) ∧
    times.get? v = some g.cursor_time := by
  rw [update_graph] at h
  cases h1 : times.get? v with
  | none => simp only [h1] at h; exact Option.noConfusion h
  | some ct =>
    simp only [h1, Option.some_inj] at h
    rw [← h]
    exact ⟨rfl, rfl, rfl⟩

theorem dictDel_append {β : Type} (l l' : List (String × β)) (c : String) :
    dictDel (l ++ l') c = dictDel l c ++ dictDel l' c := by
  simp [dictDel]

theorem dictDel_singleton_self {β : Type} (c : String) (v : β) :
    dictDel [(c, v)] c = [] := by
  simp [dictDel]

/-! ### Claim theorems -/

/-- C1: after every successful pick event the invariant
`keys(selected_electrodes_data) = active_electrodes` is preserved, the
trace store keeps one entry per key, and the comparison popup draws
exactly one trace per stored channel — so the set of drawn traces equals
the Selection State, with nothing extra and nothing stale. -/
theorem pick_keys_eq_active (ds : Dataset) (s s' : VState) (ind : Nat)
    (hinv : ∀ n, n ∈ s.active_electrodes ↔ n ∈ dictKeys s.selected_electrodes_data)
    (hnd : (dictKeys s.selected_electrodes_data).Nodup)
    (h : on_pick ds s ind = some s') :
    (∀ n, n ∈ s'.active_electrodes ↔ n ∈ dictKeys s'.selected_electrodes_data) ∧
    (dictKeys s'.selected_electrodes_data).Nodup ∧
    ∀ cmap, (show_channel_popup_render cmap s').traces.map (fun tr => tr.1) =
      dictKeys s'.selected_electrodes_data := by
  obtain ⟨c, j, hc, hfind, hs'⟩ := on_pick_shape ds s ind h
  subst hs'
  refine ⟨?_, ?_, fun cmap => popup_traces_names cmap _⟩
  · intro n
    by_cases hcs : c ∈ s.active_electrodes
    · have hsome : (dictGet? s.selected_electrodes_data c).isSome :=
        (dictGet?_isSome_iff _ _).mpr ((hinv c).mp hcs)
      rw [pick_selected s c _ hcs hsome]
      rw [show ({ s with
            active_electrodes := s.active_electrodes.filter (fun n => n ≠ c),
            selected_electrodes_data := dictDel s.selected_electrodes_data c } :
          VState).active_electrodes =
          s.active_electrodes.filter (fun n => n ≠ c) from rfl]
      rw [mem_filter_ne, dictKeys_dictDel, mem_filter_ne, hinv n]
    · have hnone : dictGet? s.selected_electrodes_data c = none :=
        (dictGet?_eq_none_iff _ _).mpr (fun hm => hcs ((hinv c).mpr hm))
      rw [pick_unselected s c _ hcs hnone]
      rw [dictKeys_append]
      simp only [List.mem_cons, List.mem_append, hinv n, dictKeys,
        List.map_cons, List.map_nil, List.mem_singleton]
      tauto
  · by_cases hcs : c ∈ s.active_electrodes
    · have hsome : (dictGet? s.selected_electrodes_data c).isSome :=
        (dictGet?_isSome_iff _ _).mpr ((hinv c).mp hcs)
      rw [pick_selected s c _ hcs hsome]
      rw [dictKeys_dictDel]
      exact hnd.filter _
    · have hnone : dictGet? s.selected_electrodes_data c = none :=
        (dictGet?_eq_none_iff _ _).mpr (fun hm => hcs ((hinv c).mpr hm))
      have hck : c ∉ dictKeys s.selected_electrodes_data :=
        (dictGet?_eq_none_iff _ _).mp hnone
      rw [pick_unselected s c _ hcs hnone]
      rw [dictKeys_append]
      rw [List.nodup_append]
      refine ⟨hnd, by simp [dictKeys], ?_⟩
      intro a ha hb
      rw [show dictKeys [(c, (⟨ds.times, get_channel_data ds j⟩ : Trace))] = [c]
        from rfl, List.mem_singleton] at hb
      exact hck (hb ▸ ha)

/-- C1 witness: picking marker 0 from the startup state preserves the
key/selection invariant on a concrete dataset. -/
theorem pick_keys_eq_active_witness :
    on_pick demoDS initState 0 = some pickedFp1 ∧
    ((∀ n, n ∈ pickedFp1.active_electrodes ↔
        n ∈ dictKeys pickedFp1.selected_electrodes_data) ∧
      (dictKeys pickedFp1.selected_electrodes_data).Nodup ∧
      ∀ cmap, (show_channel_popup_render cmap pickedFp1).traces.map (fun tr => tr.1) =
        dictKeys pickedFp1.selected_electrodes_data) :=
  ⟨by decide,
   pick_keys_eq_active demoDS initState pickedFp1 0
     (fun n => by simp [initState, dictKeys])
     (by simp [initState, dictKeys])
     (by decide)⟩

/-- C2 counterexample: a pick event carrying the out-of-range marker
index 7 on a 3-channel dataset is not a no-op — the handler does not
return the unchanged state (it raises an `IndexError`). -/
theorem oob_pick_not_noop :
    ¬ on_pick demoDS initState 7 = some initState := by decide

/-- C2 (amended): a pick whose artist is not the marker collection is a
true no-op, but a pick event carrying an out-of-range channel index makes
the handler raise an uncaught `IndexError` at `channel_names[ind]` (no
successor state) instead of being ignored. -/
theorem oob_pick_raises_indexerror (ds : Dataset) (s : VState) (ind : Nat)
    (h : ds.channel_names.length ≤ ind) :
    on_pick ds s ind = none ∧
    handle_pick_event ds s PickArtist.other ind = some s := by
  refine ⟨?_, rfl⟩
  rw [on_pick, List.get?_eq_none.mpr h]

/-- C2 witness: the amended behaviour at the concrete out-of-range
index 7. -/
theorem oob_pick_raises_indexerror_witness :
    demoDS.channel_names.length ≤ 7 ∧
    (on_pick demoDS initState 7 = none ∧
      handle_pick_event demoDS initState PickArtist.other 7 = some initState) :=
  ⟨by decide, oob_pick_raises_indexerror demoDS initState 7 (by decide)⟩

/-- C10: a successful pick of the channel at marker index `ind` leaves
every other channel's selection status, recorded trace, and the time
cursor unchanged. -/
theorem pick_frame_other_channels (ds : Dataset) (s s' : VState) (ind : Nat)
    (c d : String) (hc : ds.channel_names.get? ind = some c)
    (h : on_pick ds s ind = some s') (hd : d ≠ c) :
    (d ∈ s'.active_electrodes ↔ d ∈ s.active_electrodes) ∧
    dictGet? s'.selected_electrodes_data d =
      dictGet? s.selected_electrodes_data d ∧
    s'.sliderValue = s.sliderValue := by
  obtain ⟨c2, j, hc2, hfind, hs'⟩ := on_pick_shape ds s ind h
  rw [hc] at hc2
  have hcc : c = c2 := Option.some_inj.mp hc2
  subst hcc
  subst hs'
  refine ⟨?_, ?_, ?_⟩
  · rw [record_if_new_active]
    exact pick_toggle_active_ne s c hd
  · rw [record_if_new_dictGet_ne _ _ _ hd]
    exact pick_toggle_dictGet_ne s c hd
  · rw [record_if_new_slider, pick_toggle_slider]

/-- C10 witness: picking `Fp1` leaves `Cz` untouched on a concrete
dataset. -/
theorem pick_frame_other_channels_witness :
    demoDS.channel_names.get? 0 = some "Fp1" ∧
    on_pick demoDS initState 0 = some pickedFp1 ∧
    ("Cz" : String) ≠ "Fp1" ∧
    ((("Cz" : String) ∈ pickedFp1.active_electrodes ↔
        ("Cz" : String) ∈ initState.active_electrodes) ∧
      dictGet? pickedFp1.selected_electrodes_data "Cz" =
        dictGet? initState.selected_electrodes_data "Cz" ∧
      pickedFp1.sliderValue = initState.sliderValue) :=
  ⟨by decide, by decide, by decide,
   pick_frame_other_channels demoDS initState pickedFp1 0 "Fp1" "Cz"
     (by decide) (by decide) (by decide)⟩

/-- C4: picking the same dataset channel twice in succession restores the
prior Selection State, the prior trace store (hence the prior rendered
comparison output) and the prior time cursor, given the state is coherent
(keys match the selection set and a recorded trace for the channel is the
one extraction computes). -/
theorem toggle_twice_roundtrip (ds : Dataset) (s : VState) (ind : Nat)
    (c : String) (j : Nat)
    (hname : ds.channel_names.get? ind = some c)
    (hfind : ds.ch_names.findIdx? (fun n => n == c) = some j)
    (hinv : ∀ n, n ∈ s.active_electrodes ↔ n ∈ dictKeys s.selected_electrodes_data)
    (hcoh : ∀ tr, dictGet? s.selected_electrodes_data c = some tr →
      tr = ⟨ds.times, get_channel_data ds j⟩) :
    ∃ s1 s2, on_pick ds s ind = some s1 ∧ on_pick ds s1 ind = some s2 ∧
      VEquiv s2 s := by
  by_cases hcs : c ∈ s.active_electrodes
  · have hsome : (dictGet? s.selected_electrodes_data c).isSome :=
      (dictGet?_isSome_iff _ _).mpr ((hinv c).mp hcs)
    obtain ⟨tr0, hget⟩ := Option.isSome_iff_exists.mp hsome
    have htr0 : tr0 = ⟨ds.times, get_channel_data ds j⟩ := hcoh tr0 hget
    subst htr0
    refine ⟨{ s with
        active_electrodes := s.active_electrodes.filter (fun n => n ≠ c),
        selected_electrodes_data := dictDel s.selected_electrodes_data c },
      { s with
        active_electrodes := c :: s.active_electrodes.filter (fun n => n ≠ c),
        selected_electrodes_data := dictDel s.selected_electrodes_data c ++
          [(c, ⟨ds.times, get_channel_data ds j⟩)] },
      ?_, ?_, ?_, ?_, rfl⟩
    · rw [on_pick_eq ds s ind hname hfind, pick_selected s c _ hcs hsome]
    · rw [on_pick_eq ds _ ind hname hfind,
        pick_unselected _ c _ (not_mem_filter_self _ _) (dictGet?_dictDel_self _ _)]
    · intro n
      by_cases hn : n = c
      · subst hn
        simp [hcs]
      · simp only [List.mem_cons, mem_filter_ne]
        constructor
        · rintro (he | ⟨hm, -⟩)
          · exact absurd he hn
          · exact hm
        · exact fun hm => Or.inr ⟨hm, hn⟩
    · intro n
      by_cases hn : n = c
      · subst hn
        rw [show dictGet? (dictDel s.selected_electrodes_data n ++
            [(n, (⟨ds.times, get_channel_data ds j⟩ : Trace))]) n =
            dictGet? [(n, (⟨ds.times, get_channel_data ds j⟩ : Trace))] n from
          dictGet?_append_none (dictGet?_dictDel_self _ _) _]
        rw [dictGet?_singleton, if_pos rfl, hget]
      · rw [dictGet?_append_singleton_ne _ _ hn, dictGet?_dictDel_ne _ hn]
  · have hnone : dictGet? s.selected_electrodes_data c = none :=
      (dictGet?_eq_none_iff _ _).mpr (fun hm => hcs ((hinv c).mpr hm))
    have hsome2 : dictGet? (s.selected_electrodes_data ++
        [(c, (⟨ds.times, get_channel_data ds j⟩ : Trace))]) c =
        some ⟨ds.times, get_channel_data ds j⟩ := by
      rw [dictGet?_append_none hnone, dictGet?_singleton, if_pos rfl]
    refine ⟨{ s with
        active_electrodes := c :: s.active_electrodes,
        selected_electrodes_data := s.selected_electrodes_data ++
          [(c, ⟨ds.times, get_channel_data ds j⟩)] },
      { s with
        active_electrodes := (c :: s.active_electrodes).filter (fun n => n ≠ c),
        selected_electrodes_data := dictDel (s.selected_electrodes_data ++
          [(c, ⟨ds.times, get_channel_data ds j⟩)]) c },
      ?_, ?_, ?_, ?_, rfl⟩
    · rw [on_pick_eq ds s ind hname hfind, pick_unselected s c _ hcs hnone]
    · rw [on_pick_eq ds _ ind hname hfind,
        pick_selected _ c _ (List.mem_cons_self _ _) (by rw [hsome2]; rfl)]
    · intro n
      by_cases hn : n = c
      · subst hn
        simp only [mem_filter_ne]
        constructor
        · rintro ⟨-, hne⟩
          exact absurd rfl hne
        · exact fun hm => absurd hm hcs
      · simp only [mem_filter_ne, List.mem_cons]
        constructor
        · rintro ⟨he | hm, -⟩
          · exact absurd he hn
          · exact hm
        · exact fun hm => ⟨Or.inr hm, hn⟩
    · intro n
      rw [show dictDel (s.selected_electrodes_data ++
          [(c, (⟨ds.times, get_channel_data ds j⟩ : Trace))]) c =
          dictDel s.selected_electrodes_data c ++
            dictDel [(c, (⟨ds.times, get_channel_data ds j⟩ : Trace))] c from
        dictDel_append _ _ _]
      rw [dictDel_singleton_self, dictDel_eq_self hnone, List.append_nil]

/-- C4 witness: toggling marker 0 (`Fp1`) twice from the startup state of
a concrete dataset restores the startup state. -/
theorem toggle_twice_roundtrip_witness :
    demoDS.channel_names.get? 0 = some "Fp1" ∧
    demoDS.ch_names.findIdx? (fun n => n == "Fp1") = some 0 ∧
    ∃ s1 s2, on_pick demoDS initState 0 = some s1 ∧
      on_pick demoDS s1 0 = some s2 ∧ VEquiv s2 initState :=
  ⟨by decide, by decide,
   toggle_twice_roundtrip demoDS initState 0 "Fp1" 0 (by decide) (by decide)
     (fun n => by simp [initState, dictKeys])
     (fun tr h => by simp [initState, dictGet?] at h)⟩

/-- C3 counterexample: the fixed unselected marker color is `"red"`,
which is not distinct from the palette — it is palette entry 11 — so the
18-channel montage's marker 11 (`P7`) is drawn `"red"` both when selected
and when unselected. -/
theorem default_red_in_palette :
    "red" ∈ vibrant_colors ∧
    (update_plot ds18 (create_color_map channels_of_interest)
        { active_electrodes := ["P7"], selected_electrodes_data := [],
          sliderValue := 0 }).map
      (fun r => r.marker_facecolors.getD 11 "") = some "red" ∧
    (update_plot ds18 (create_color_map channels_of_interest) initState).map
      (fun r => r.marker_facecolors.getD 11 "") = some "red" :=
  ⟨by decide, by decide, by decide⟩

/-- C3 (amended): after a render update, marker `i` is filled with
`vibrant_colors[i % 18]` when its channel is selected and with the fixed
default `"red"` when unselected; the two colors coincide exactly when
`i % 18 = 11`, because `"red"` is palette entry 11, and differ for every
other index. -/
theorem marker_fill_colors (ds : Dataset) (s : VState) (r : SpatialRender)
    (hnd : ds.channel_names.Nodup)
    (h : update_plot ds (create_color_map ds.channel_names) s = some r)
    (i : Nat) (hi : i < ds.channel_names.length) :
    r.marker_facecolors.get? i =
      some (if ds.channel_names.get ⟨i, hi⟩ ∈ s.active_electrodes
            then vibrant_colors.getD (i % vibrant_colors.length) "" else "red") ∧
    (vibrant_colors.getD (i % vibrant_colors.length) "" = "red" ↔
      i % vibrant_colors.length = 11) := by
  obtain ⟨-, -, hfc⟩ := update_plot_inv h
  constructor
  · rw [facecolor_list_get _ _ _ _ hfc i hi]
    split
    · rw [dictGet?_create_color_map ds.channel_names hnd i hi]
    · rfl
  · exact vibrant_red_iff _ (Nat.mod_lt _ (by decide))

/-- C3 witness: the amended color rule at marker 0 (`Fp1`, selected) of a
concrete dataset. -/
theorem marker_fill_colors_witness :
    demoDS.channel_names.Nodup ∧
    update_plot demoDS (create_color_map demoDS.channel_names) selFp1 =
      some ⟨0, [3, 4, 5], ["blue", "red", "red"]⟩ ∧
    ((⟨0, [3, 4, 5], ["blue", "red", "red"]⟩ : SpatialRender).marker_facecolors.get? 0 =
      some (if demoDS.channel_names.get ⟨0, by decide⟩ ∈ selFp1.active_electrodes
            then vibrant_colors.getD (0 % vibrant_colors.length) "" else "red") ∧
     (vibrant_colors.getD (0 % vibrant_colors.length) "" = "red" ↔
       0 % vibrant_colors.length = 11)) :=
  ⟨by decide, by decide,
   marker_fill_colors demoDS selFp1 _ (by decide) (by decide) 0 (by decide)⟩

/-- C5: channel `i` of the channel list is always colored
`vibrant_colors[i % len(vibrant_colors)]` over the fixed 18-color
palette; the color map is a pure function of the channel list alone, so
the assignment is independent of selection state, render order and
repeated calls. -/
theorem colorOf_palette_formula (names : List String) (hnd : names.Nodup)
    (i : Nat) (hi : i < names.length) :
    vibrant_colors.length = 18 ∧
    dictGet? (create_color_map names) (names.get ⟨i, hi⟩) =
      some (vibrant_colors.getD (i % vibrant_colors.length) "") :=
  ⟨rfl, dictGet?_create_color_map names hnd i hi⟩

/-- C5 witness: the third channel (`F7`) of the full montage is colored
`vibrant_colors[2] = "cyan"`. -/
theorem colorOf_palette_formula_witness :
    channels_of_interest.Nodup ∧
    (vibrant_colors.length = 18 ∧
      dictGet? (create_color_map channels_of_interest)
        (channels_of_interest.get ⟨2, by decide⟩) =
        some (vibrant_colors.getD (2 % vibrant_colors.length) "")) :=
  ⟨by decide, colorOf_palette_formula channels_of_interest (by decide) 2 (by decide)⟩

/-- C7: a time-slider move changes neither the selection set nor the
trace store nor the popup comparison drawing; the spatial view's marker
colors are unchanged, and the comparison graph's trace set and
placeholder are the same at any two cursor positions — only the
time slice and time-dependent decorations move. -/
theorem slider_preserves_selection (ds : Dataset) (cmap : List (String × Color))
    (s : VState) (v : Int) (r r' : SpatialRender)
    (h : update_plot ds cmap s = some r)
    (h' : update_plot ds cmap (slider_change ds s v) = some r') :
    (slider_change ds s v).active_electrodes = s.active_electrodes ∧
    (slider_change ds s v).selected_electrodes_data = s.selected_electrodes_data ∧
    show_channel_popup_render cmap (slider_change ds s v) =
      show_channel_popup_render cmap s ∧
    r'.marker_facecolors = r.marker_facecolors ∧
    ∀ (times : List ℚ) (v₁ v₂ : Nat) (sd : List (String × FDTrace))
      (g₁ g₂ : GraphRender),
      update_graph cmap times v₁ sd = some g₁ →
      update_graph cmap times v₂ sd = some g₂ →
      g₁.traces = g₂.traces ∧ g₁.texts = g₂.texts := by
  obtain ⟨-, -, hfc⟩ := update_plot_inv h
  obtain ⟨-, -, hfc'⟩ := update_plot_inv h'
  refine ⟨rfl, rfl, rfl, ?_, ?_⟩
  · have hsame : facecolor_list cmap s.active_electrodes ds.channel_names =
        some r'.marker_facecolors := hfc'
    exact Option.some_inj.mp (hsame.symm.trans hfc)
  · intro times v₁ v₂ sd g₁ g₂ h₁ h₂
    obtain ⟨ht₁, htr₁, -⟩ := update_graph_inv h₁
    obtain ⟨ht₂, htr₂, -⟩ := update_graph_inv h₂
    exact ⟨htr₁.trans htr₂.symm, ht₁.trans ht₂.symm⟩

/-- C7 witness: moving the slider to 1 with `Fp1` selected on a concrete
dataset. -/
theorem slider_preserves_selection_witness :
    update_plot demoDS (create_color_map demoDS.channel_names) pickedFp1 =
      some ⟨0, [3, 4, 5], ["blue", "red", "red"]⟩ ∧
    update_plot demoDS (create_color_map demoDS.channel_names)
        (slider_change demoDS pickedFp1 1) =
      some ⟨1, [0, 0, 0], ["blue", "red", "red"]⟩ ∧
    ((slider_change demoDS pickedFp1 1).active_electrodes =
        pickedFp1.active_electrodes ∧
      (slider_change demoDS pickedFp1 1).selected_electrodes_data =
        pickedFp1.selected_electrodes_data ∧
      show_channel_popup_render (create_color_map demoDS.channel_names)
          (slider_change demoDS pickedFp1 1) =
        show_channel_popup_render (create_color_map demoDS.channel_names)
          pickedFp1 ∧
      (⟨1, [0, 0, 0], ["blue", "red", "red"]⟩ : SpatialRender).marker_facecolors =
        (⟨0, [3, 4, 5], ["blue", "red", "red"]⟩ : SpatialRender).marker_facecolors ∧
      ∀ (times : List ℚ) (v₁ v₂ : Nat) (sd : List (String × FDTrace))
        (g₁ g₂ : GraphRender),
        update_graph (create_color_map demoDS.channel_names) times v₁ sd = some g₁ →
        update_graph (create_color_map demoDS.channel_names) times v₂ sd = some g₂ →
        g₁.traces = g₂.traces ∧ g₁.texts = g₂.texts) :=
  ⟨by decide, by decide,
   slider_preserves_selection demoDS (create_color_map demoDS.channel_names)
     pickedFp1 1 _ _ (by decide) (by decide)⟩

/-- C8 counterexample: with an empty Selection State the popup comparison
view of src/integrated_code.py draws no trace and no text at all — an
empty plot with no "no selection" placeholder. -/
theorem popup_empty_no_placeholder :
    initState.selected_electrodes_data = [] ∧
    (show_channel_popup_render (create_color_map channels_of_interest)
      initState).texts = [] ∧
    (show_channel_popup_render (create_color_map channels_of_interest)
      initState).traces = [] :=
  ⟨rfl, rfl, rfl⟩

/-- C8 (amended): in the src/final_diagram.py comparison view, the
"No electrode selected." placeholder is shown exactly when no trace is
drawn, which happens exactly when the selection dict is empty; the
src/integrated_code.py popup draws no placeholder at all. -/
theorem graph_placeholder_iff_empty (cmap : List (String × Color))
    (times : List ℚ) (v : Nat) (sd : List (String × FDTrace)) (g : GraphRender)
    (h : update_graph cmap times v sd = some g) :
    (g.texts = ["No electrode selected."] ↔ g.traces = []) ∧
    (sd = [] → g.texts = ["No electrode selected."]) ∧
    (sd ≠ [] → g.texts = []) := by
  obtain ⟨ht, htr, -⟩ := update_graph_inv h
  rw [ht, htr]
  cases sd with
  | nil => simp
  | cons p rest => simp

/-- C8 witness: the amended placeholder rule at a concrete non-empty
selection. -/
theorem graph_placeholder_iff_empty_witness :
    update_graph (create_color_map ["Fp1"]) [0] 0 [("Fp1", ([0], [3]))] =
      some ⟨[], [("Fp1", "blue", [3])], 0⟩ ∧
    (((⟨[], [("Fp1", "blue", [3])], 0⟩ : GraphRender).texts =
        ["No electrode selected."] ↔
      (⟨[], [("Fp1", "blue", [3])], 0⟩ : GraphRender).traces = []) ∧
     ([("Fp1", (([0], [3]) : FDTrace))] = [] →
       (⟨[], [("Fp1", "blue", [3])], 0⟩ : GraphRender).texts =
         ["No electrode selected."]) ∧
     ([("Fp1", (([0], [3]) : FDTrace))] ≠ [] →
       (⟨[], [("Fp1", "blue", [3])], 0⟩ : GraphRender).texts = [])) :=
  ⟨by decide,
   graph_placeholder_iff_empty (create_color_map ["Fp1"]) [0] 0
     [("Fp1", ([0], [3]))] _ (by decide)⟩

/-- C9: any requested slider value is clamped into
`[0, len(evoked.times) - 1]`, and at the clamped cursor the render update
succeeds — every time-axis and amplitude-array index it takes is in
bounds (rows as long as the time axis, nonempty time axis). -/
theorem time_cursor_in_bounds (ds : Dataset) (s : VState) (v : Int)
    (h0 : 0 < ds.times.length)
    (hrows : ∀ row ∈ ds.evokedData, row.length = ds.times.length) :
    slider_set_value ds v < ds.times.length ∧
    (update_plot ds (create_color_map ds.channel_names)
      { s with sliderValue := slider_set_value ds v }).isSome := by
  have hb : slider_set_value ds v < ds.times.length := by
    rw [slider_set_value, qt_bound]
    have h1 : min v ((ds.times.length : Int) - 1) ≤ (ds.times.length : Int) - 1 :=
      min_le_right _ _
    have h2 : (0 : Int) ≤ (ds.times.length : Int) - 1 := by omega
    have h3 : max 0 (min v ((ds.times.length : Int) - 1)) ≤
        (ds.times.length : Int) - 1 := max_le h2 h1
    omega
  refine ⟨hb, ?_⟩
  have ht : ds.times.get? (slider_set_value ds v) =
      some (ds.times.get ⟨slider_set_value ds v, hb⟩) := List.get?_eq_get hb
  have hcs : (column_slice (slider_set_value ds v) ds.evokedData).isSome :=
    column_slice_isSome _ _ (fun row hr => (hrows row hr) ▸ hb)
  have hfc : (facecolor_list (create_color_map ds.channel_names)
      s.active_electrodes ds.channel_names).isSome :=
    facecolor_list_isSome _ _ _ (fun n hn _ => dictGet?_create_isSome hn)
  obtain ⟨vals, hv⟩ := Option.isSome_iff_exists.mp hcs
  obtain ⟨cols, hcol⟩ := Option.isSome_iff_exists.mp hfc
  rw [update_plot]
  simp only [ht, hv, hcol]
  rfl

/-- C9 witness: the over-range request 99 on a 2-sample time axis is
clamped to 1 and the render succeeds there. -/
theorem time_cursor_in_bounds_witness :
    0 < demoDS.times.length ∧
    (∀ row ∈ demoDS.evokedData, row.length = demoDS.times.length) ∧
    (slider_set_value demoDS 99 < demoDS.times.length ∧
      (update_plot demoDS (create_color_map demoDS.channel_names)
        { initState with sliderValue := slider_set_value demoDS 99 }).isSome) :=
  ⟨by decide, by decide,
   time_cursor_in_bounds demoDS initState 99 (by decide) (by decide)⟩

/-- C6 counterexample: the popup's band half-width is `numpy`'s default
(population, `ddof = 0`) standard deviation, not the sample standard
deviation the claim names: at the spec's own scenario `[1, 3, 5]` the code
computes variance `8/3` (std ≈ 1.633) while the sample variance is `4`
(sample std = 2). -/
theorem std_is_population_not_sample :
    mean_curve [[1], [3], [5]] = [3] ∧
    var_curve [[1], [3], [5]] = [8 / 3] ∧
    sample_var [1, 3, 5] = 4 ∧
    var_curve [[1], [3], [5]] ≠ [sample_var [1, 3, 5]] := by
  refine ⟨?_, ?_, ?_, ?_⟩
  · norm_num [mean_curve, n_times, column_at, np_mean, List.range_succ]
  · norm_num [var_curve, n_times, column_at, np_var, np_mean, List.range_succ]
  · norm_num [sample_var, np_mean]
  · norm_num [var_curve, n_times, column_at, np_var, np_mean, sample_var,
      List.range_succ]

/-- C6 (amended): on the scenario `[1, 3, 5]` the extraction exposes the
across-epoch arithmetic mean `3` and the population (`ddof = 0`)
variance `8/3`, drawn as the mean curve plus a symmetric band of one
such standard deviation, which is ≈ 1.633 — so the band is
≈ `[1.367, 4.633]`. -/
theorem trace_mean_band_values (sd : ℝ) (hsd : 0 ≤ sd) (hsq : sd ^ 2 = 8 / 3) :
    mean_curve [[1], [3], [5]] = [3] ∧
    var_curve [[1], [3], [5]] = [8 / 3] ∧
    (show_channel_popup_render (create_color_map ["Fp1"]) popFp1State).traces =
      [("Fp1", "blue", [3], [8 / 3])] ∧
    (1632 / 1000 : ℝ) < sd ∧ sd < 1634 / 1000 ∧
    (1366 / 1000 : ℝ) < 3 - sd ∧ (3 : ℝ) - sd < 1368 / 1000 ∧
    (4632 / 1000 : ℝ) < 3 + sd ∧ (3 : ℝ) + sd < 4634 / 1000 := by
  have hm : mean_curve [[1], [3], [5]] = [3] := by
    norm_num [mean_curve, n_times, column_at, np_mean, List.range_succ]
  have hv : var_curve [[1], [3], [5]] = [8 / 3] := by
    norm_num [var_curve, n_times, column_at, np_var, np_mean, List.range_succ]
  have hlo : (1632 / 1000 : ℝ) < sd := by nlinarith
  have hhi : sd < 1634 / 1000 := by nlinarith
  refine ⟨hm, hv, ?_, hlo, hhi, by linarith, by linarith, by linarith, by linarith⟩
  simp [show_channel_popup_render, popFp1State, create_color_map, color_map_from,
    dictGet?, vibrant_colors, hm, hv]

/-- C6 witness: the amended band values at the actual half-width
`Real.sqrt (8/3)`. -/
theorem trace_mean_band_values_witness :
    (0 : ℝ) ≤ Real.sqrt (8 / 3) ∧ Real.sqrt (8 / 3) ^ 2 = 8 / 3 ∧
    (mean_curve [[1], [3], [5]] = [3] ∧
     var_curve [[1], [3], [5]] = [8 / 3] ∧
     (show_channel_popup_render (create_color_map ["Fp1"]) popFp1State).traces =
       [("Fp1", "blue", [3], [8 / 3])] ∧
     (1632 / 1000 : ℝ) < Real.sqrt (8 / 3) ∧ Real.sqrt (8 / 3) < 1634 / 1000 ∧
     (1366 / 1000 : ℝ) < 3 - Real.sqrt (8 / 3) ∧
     (3 : ℝ) - Real.sqrt (8 / 3) < 1368 / 1000 ∧
     (4632 / 1000 : ℝ) < 3 + Real.sqrt (8 / 3) ∧
     (3 : ℝ) + Real.sqrt (8 / 3) < 4634 / 1000) :=
  ⟨Real.sqrt_nonneg _, Real.sq_sqrt (by norm_num),
   trace_mean_band_values (Real.sqrt (8 / 3)) (Real.sqrt_nonneg _)
     (Real.sq_sqrt (by norm_num))⟩

end EEG

